import Mathlib

/-!
Verification of the token account-layout codec and instruction encoders of
`src/src/client/token.js`, together with the transaction-confirmation loop
described by the design document.

Buffers are modelled as `List Nat`; a JavaScript `Buffer` element is always a
byte, and every place the source masks a value to its low byte (`& 0xff` in
`BN._initArray`, the two-hex-digit `slice(-2)` in `TokenAmount.fromBuffer`,
`readUInt32LE`) the model applies `% 256` at the same spot. Public keys are
represented by the big-endian magnitude `BN` that `new PublicKey(bytes)`
wraps, which is exactly what `PublicKey.equals` compares.
-/

namespace SolanaToken

/-- Minimal little-endian byte expansion of a natural number (empty for zero).
`BN.prototype.toArray` returns the minimal big-endian byte array; this is its
reverse. -/
def natLEBytes : Nat → List Nat
  | 0 => []
  | v + 1 => (v + 1) % 256 :: natLEBytes ((v + 1) / 256)
decreasing_by exact Nat.div_lt_self (Nat.succ_pos v) (by omega)

/-- `BN.prototype.toArray()`: the minimal big-endian byte array of the
magnitude, which is `[0]` for zero (`reqLength = Math.max(1, byteLength)`). -/
def bnToArray (v : Nat) : List Nat :=
  if v = 0 then [0] else (natLEBytes v).reverse

/-- `TokenAmount.toBuffer` (token.js lines 27-38): reverse the big-endian
array, return it when it is exactly 8 bytes, zero-pad it on the high end to
8 bytes when shorter, and fail the `assert(b.length < 8)` when longer. -/
def TokenAmount.toBuffer (v : Nat) : Option (List Nat) :=
  let b := (bnToArray v).reverse
  if b.length = 8 then some b
  else if b.length < 8 then some (b ++ List.replicate (8 - b.length) 0)
  else none

/-- The value of `[...buffer].map(i => ('00' + i.toString(16)).slice(-2)).join('')`
read in base 16: a left fold that takes each element's low byte (the
`slice(-2)` keeps exactly the final two hex digits). -/
def hexJoinVal (l : List Nat) : Nat :=
  l.foldl (fun acc b => acc * 256 + b % 256) 0

/-- `TokenAmount.fromBuffer` (token.js lines 43-52): assert the buffer is
exactly 8 bytes, reverse it, and read the hex join as a base-16 magnitude. -/
def TokenAmount.fromBuffer (buffer : List Nat) : Option Nat :=
  if buffer.length = 8 then some (hexJoinVal buffer.reverse) else none

/-- Little-endian value of a byte list, masking each element to its low byte
exactly where the source does. -/
def leValM (l : List Nat) : Nat :=
  l.foldr (fun b acc => b % 256 + 256 * acc) 0

/-- The `k`-byte little-endian encoding of `v % 256^k`. -/
def leBytesFixed : Nat → Nat → List Nat
  | 0, _ => []
  | k + 1, v => v % 256 :: leBytesFixed k (v / 256)

theorem leBytesFixed_length (k v : Nat) : (leBytesFixed k v).length = k := by
  induction k generalizing v with
  | zero => rfl
  | succ k ih => simp [leBytesFixed, ih]

theorem hexJoinVal_reverse (l : List Nat) : hexJoinVal l.reverse = leValM l := by
  induction l with
  | nil => rfl
  | cons a l ih =>
    simp only [leValM, List.foldr_cons, hexJoinVal, List.reverse_cons,
      List.foldl_append, List.foldl_cons, List.foldl_nil]
    rw [show List.foldl (fun acc b => acc * 256 + b % 256) 0 l.reverse
        = hexJoinVal l.reverse from rfl, ih]
    simp [leValM]
    omega

theorem natLEBytes_zero : natLEBytes 0 = [] := by
  simp [natLEBytes]

theorem natLEBytes_pos (v : Nat) (hv : v ≠ 0) :
    natLEBytes v = v % 256 :: natLEBytes (v / 256) := by
  cases v with
  | zero => exact absurd rfl hv
  | succ w => rw [natLEBytes]

theorem leValM_natLEBytes (v : Nat) : leValM (natLEBytes v) = v := by
  induction v using Nat.strong_induction_on with
  | _ v ih =>
    cases Nat.eq_zero_or_pos v with
    | inl h => subst h; rw [natLEBytes_zero]; rfl
    | inr h =>
      rw [natLEBytes_pos v (Nat.pos_iff_ne_zero.mp h)]
      have hlt : v / 256 < v := Nat.div_lt_self h (by omega)
      simp only [leValM, List.foldr_cons]
      rw [show List.foldr (fun b acc => b % 256 + 256 * acc) 0 (natLEBytes (v / 256))
          = leValM (natLEBytes (v / 256)) from rfl, ih _ hlt]
      omega

/-- Padding the minimal little-endian bytes of `v < 256^k` with zero bytes up
to length `k` yields the fixed `k`-byte little-endian encoding. -/
theorem natLEBytes_pad (k : Nat) : ∀ v : Nat, v < 256 ^ k →
    natLEBytes v ++ List.replicate (k - (natLEBytes v).length) 0 = leBytesFixed k v := by
  induction k with
  | zero =>
    intro v hv
    have : v = 0 := by simpa using hv
    subst this
    simp [natLEBytes_zero, leBytesFixed]
  | succ k ih =>
    intro v hv
    cases Nat.eq_zero_or_pos v with
    | inl h =>
      subst h
      have h0 : (0 : Nat) < 256 ^ k := Nat.pos_pow_of_pos k (by omega)
      have := ih 0 h0
      simp only [natLEBytes_zero, List.nil_append, List.length_nil, Nat.sub_zero] at this ⊢
      rw [leBytesFixed, Nat.zero_mod, Nat.zero_div, List.replicate_succ, this]
    | inr h =>
      have hne : v ≠ 0 := Nat.pos_iff_ne_zero.mp h
      have hdiv : v / 256 < 256 ^ k := by
        rw [Nat.div_lt_iff_lt_mul (by omega : (0:Nat) < 256)]
        calc v < 256 ^ (k + 1) := hv
          _ = 256 ^ k * 256 := by rw [Nat.pow_succ]
      rw [natLEBytes_pos v hne, leBytesFixed]
      simp only [List.length_cons, List.cons_append, List.cons.injEq, true_and]
      rw [show (k + 1) - ((natLEBytes (v / 256)).length + 1)
          = k - (natLEBytes (v / 256)).length by omega]
      exact ih (v / 256) hdiv

theorem natLEBytes_length_le (k v : Nat) (hv : v < 256 ^ k) :
    (natLEBytes v).length ≤ k := by
  have h := natLEBytes_pad k v hv
  have := congrArg List.length h
  simp only [List.length_append, List.length_replicate, leBytesFixed_length] at this
  omega

theorem natLEBytes_length_gt (k : Nat) : ∀ v : Nat, 256 ^ k ≤ v →
    k < (natLEBytes v).length := by
  induction k with
  | zero =>
    intro v hv
    have : v ≠ 0 := by omega
    rw [natLEBytes_pos v this]
    simp
  | succ k ih =>
    intro v hv
    have hne : v ≠ 0 := by
      have : (0:Nat) < 256 ^ (k+1) := Nat.pos_pow_of_pos _ (by omega)
      omega
    have hdiv : 256 ^ k ≤ v / 256 := by
      rw [Nat.le_div_iff_mul_le (by omega : (0:Nat) < 256)]
      calc 256 ^ k * 256 = 256 ^ (k + 1) := (Nat.pow_succ 256 k).symm
        _ ≤ v := hv
    rw [natLEBytes_pos v hne]
    simp only [List.length_cons]
    exact Nat.succ_lt_succ (ih (v / 256) hdiv)

theorem pow_256_8 : (256 : Nat) ^ 8 = 2 ^ 64 := by norm_num

/-- For every value below `2^64`, `toBuffer` succeeds with the 8-byte
little-endian encoding. -/
theorem toBuffer_eq_le8 (v : Nat) (hv : v < 2 ^ 64) :
    TokenAmount.toBuffer v = some (leBytesFixed 8 v) := by
  rw [TokenAmount.toBuffer]
  cases Nat.eq_zero_or_pos v with
  | inl h =>
    subst h
    rfl
  | inr h =>
    have hne : v ≠ 0 := Nat.pos_iff_ne_zero.mp h
    have hv' : v < 256 ^ 8 := by rw [pow_256_8]; exact hv
    have hlen : (natLEBytes v).length ≤ 8 := natLEBytes_length_le 8 v hv'
    have hpad := natLEBytes_pad 8 v hv'
    simp only [bnToArray, if_neg hne, List.reverse_reverse]
    rcases Nat.lt_or_ge (natLEBytes v).length 8 with hlt | hge
    · rw [if_neg (by omega), if_pos hlt, hpad]
    · have heq : (natLEBytes v).length = 8 := by omega
      rw [if_pos heq]
      have : List.replicate (8 - (natLEBytes v).length) (0:Nat) = [] := by
        rw [heq]
        simp
      rw [this, List.append_nil] at hpad
      rw [hpad]

/-- For every value of 9 or more bytes, `toBuffer` fails. -/
theorem toBuffer_none (v : Nat) (hv : 2 ^ 64 ≤ v) :
    TokenAmount.toBuffer v = none := by
  have hne : v ≠ 0 := by
    have : (0:Nat) < 2 ^ 64 := by positivity
    omega
  have hgt : 8 < (natLEBytes v).length := by
    apply natLEBytes_length_gt
    rw [pow_256_8]
    exact hv
  rw [TokenAmount.toBuffer]
  simp only [bnToArray, if_neg hne, List.reverse_reverse]
  rw [if_neg (by omega), if_neg (by omega)]

theorem fromBuffer_eq_leValM (buffer : List Nat) (h : buffer.length = 8) :
    TokenAmount.fromBuffer buffer = some (leValM buffer) := by
  rw [TokenAmount.fromBuffer, if_pos h, hexJoinVal_reverse]

theorem leValM_leBytesFixed (k : Nat) : ∀ v : Nat,
    leValM (leBytesFixed k v) = v % 256 ^ k := by
  induction k with
  | zero =>
    intro v
    simp [leBytesFixed, leValM, Nat.mod_one]
  | succ k ih =>
    intro v
    rw [leBytesFixed]
    simp only [leValM, List.foldr_cons]
    rw [show List.foldr (fun b acc => b % 256 + 256 * acc) 0 (leBytesFixed k (v / 256))
        = leValM (leBytesFixed k (v / 256)) from rfl, ih]
    rw [show (256:Nat) ^ (k+1) = 256 * 256 ^ k by ring, Nat.mod_mul]
    omega

/-- Claim C1: for every amount `v` with `0 <= v < 2^64`, decoding the encoded
buffer returns the original value:
`TokenAmount.fromBuffer (TokenAmount.toBuffer v) = v`. -/
theorem claim_C1_amount_roundtrip (v : Nat) (hv : v < 2 ^ 64) :
    (TokenAmount.toBuffer v).bind TokenAmount.fromBuffer = some v := by
  rw [toBuffer_eq_le8 v hv, Option.some_bind,
    fromBuffer_eq_leValM _ (leBytesFixed_length 8 v), leValM_leBytesFixed,
    pow_256_8, Nat.mod_eq_of_lt hv]

/-- Witness for C1 at `v = 123456789`. -/
theorem claim_C1_witness :
    (TokenAmount.toBuffer 123456789).bind TokenAmount.fromBuffer = some 123456789 :=
  claim_C1_amount_roundtrip 123456789 (by norm_num)

/-- Claim C2: for every `v < 2^64`, `toBuffer` returns exactly 8 bytes (the
big-endian magnitude byte-reversed and zero-padded to 8 bytes, i.e. the
little-endian encoding), and for every `v >= 2^64` it fails rather than
truncating. -/
theorem claim_C2_toBuffer_exact (v : Nat) :
    (v < 2 ^ 64 → TokenAmount.toBuffer v = some (leBytesFixed 8 v)
      ∧ (leBytesFixed 8 v).length = 8)
    ∧ (2 ^ 64 ≤ v → TokenAmount.toBuffer v = none) :=
  ⟨fun h => ⟨toBuffer_eq_le8 v h, leBytesFixed_length 8 v⟩, toBuffer_none v⟩

/-- Witness for C2 at `v = 258` (success) and `v = 2^64` (overflow). -/
theorem claim_C2_witness :
    (TokenAmount.toBuffer 258 = some (leBytesFixed 8 258)
      ∧ (leBytesFixed 8 258).length = 8)
    ∧ TokenAmount.toBuffer (2 ^ 64) = none :=
  ⟨(claim_C2_toBuffer_exact 258).1 (by norm_num),
   (claim_C2_toBuffer_exact (2 ^ 64)).2 (by norm_num)⟩

/-- Claim C7: `fromBuffer` fails on every buffer whose length is not exactly
8, and succeeds on every 8-byte buffer with the little-endian-interpreted
magnitude. -/
theorem claim_C7_fromBuffer_length (buffer : List Nat) :
    (buffer.length ≠ 8 → TokenAmount.fromBuffer buffer = none)
    ∧ (buffer.length = 8 → TokenAmount.fromBuffer buffer = some (leValM buffer)) := by
  constructor
  · intro h
    rw [TokenAmount.fromBuffer, if_neg h]
  · exact fromBuffer_eq_leValM buffer

/-- Witness for C7: a 3-byte buffer is rejected, an 8-byte one decoded. -/
theorem claim_C7_witness :
    TokenAmount.fromBuffer [1, 2, 3] = none
    ∧ TokenAmount.fromBuffer [1, 2, 0, 0, 0, 0, 0, 0]
      = some (leValM [1, 2, 0, 0, 0, 0, 0, 0]) :=
  ⟨(claim_C7_fromBuffer_length [1, 2, 3]).1 (by decide),
   (claim_C7_fromBuffer_length [1, 2, 0, 0, 0, 0, 0, 0]).2 (by decide)⟩

/-- `new PublicKey(bytes)` wraps `new BN(bytes)`, the big-endian magnitude of
the byte array with each entry masked to its low byte; `PublicKey.equals`
compares these magnitudes. -/
def pubKeyVal (l : List Nat) : Nat :=
  l.foldl (fun acc b => acc * 256 + b % 256) 0

/-- The record `Token.tokenInfo` returns: the decoded `TokenInfoLayout`
fields with `supply` converted to a number. -/
structure TokenInfo where
  state : Nat
  supply : Nat
  decimals : Nat
deriving Repr, DecidableEq

/-- The record `Token.accountInfo` returns: the decoded
`TokenAccountInfoLayout` fields after post-processing (keys as magnitudes,
amounts as numbers, `source` an option). -/
structure TokenAccountInfo where
  state : Nat
  token : Nat
  owner : Nat
  amount : Nat
  source : Option Nat
  originalAmount : Nat
deriving Repr, DecidableEq

/-- The decode stage of `Token.tokenInfo` (token.js lines 349-356).
`TokenInfoLayout` is `u8 state, 8-byte supply blob, u8 decimals` (span 10);
reading the `u8 decimals` at offset 9 raises on a buffer shorter than 10
bytes, while the supply blob read clamps. After the layout decode the state
sentinel is checked and `supply` converted with `TokenAmount.fromBuffer`. -/
def decodeTokenInfo (data : List Nat) : Except String TokenInfo :=
  if data.length < 10 then .error "index out of range"
  else
    let state := data.headD 0
    let supplyB := (data.drop 1).take 8
    let decimals := (data.drop 9).headD 0
    if state ≠ 1 then .error "Invalid token account data"
    else
      match TokenAmount.fromBuffer supplyB with
      | none => .error "Invalid buffer length"
      | some supply => .ok ⟨state, supply, decimals⟩

/-- `Token.tokenInfo` (token.js lines 341-357): reject the account when its
owning program differs from `programId`, then decode its data. -/
def Token.tokenInfo (programId accountOwner : Nat) (data : List Nat) :
    Except String TokenInfo :=
  if accountOwner ≠ programId then .error "Invalid token owner"
  else decodeTokenInfo data

/-- The decode stage of `Token.accountInfo` (token.js lines 370-397).
`TokenAccountInfoLayout` is `u8 state, 32-byte token, 32-byte owner, 8-byte
amount, nu64 sourceOption, 32-byte source, 8-byte originalAmount` (span 121).
The `u8` read at offset 0 and the `nu64` read at offsets 73 and 77 raise on a
buffer shorter than 81 bytes; blob reads clamp, so a clamped short `amount`
or `originalAmount` blob fails later inside `TokenAmount.fromBuffer`. The
`nu64 sourceOption` value `readUInt32LE(73) + 2^32 * readUInt32LE(77)` is the
little-endian value of bytes 73..81 and is only ever compared against zero,
where the float arithmetic is exact. `state` is checked against sentinel 2,
`amount` converted, then: when `sourceOption = 0` the `source` is cleared to
`none` and `originalAmount` set to the fresh zero `new TokenAmount()`; when
nonzero both trailing fields are decoded from their bytes. Finally the
decoded `token` is cross-checked against the expected token identity. -/
def decodeTokenAccountInfo (expectedToken : Nat) (data : List Nat) :
    Except String TokenAccountInfo :=
  if data.length < 81 then .error "index out of range"
  else
    let state := data.headD 0
    let tokenV := pubKeyVal ((data.drop 1).take 32)
    let ownerV := pubKeyVal ((data.drop 33).take 32)
    let amountB := (data.drop 65).take 8
    let sourceOption := leValM ((data.drop 73).take 8)
    if state ≠ 2 then .error "Invalid token account data"
    else
      match TokenAmount.fromBuffer amountB with
      | none => .error "Invalid buffer length"
      | some amount =>
        let next : Option TokenAccountInfo :=
          if sourceOption = 0 then
            some ⟨state, tokenV, ownerV, amount, none, 0⟩
          else
            match TokenAmount.fromBuffer ((data.drop 113).take 8) with
            | none => none
            | some orig =>
              some ⟨state, tokenV, ownerV, amount,
                some (pubKeyVal ((data.drop 81).take 32)), orig⟩
        match next with
        | none => .error "Invalid buffer length"
        | some info =>
          if info.token ≠ expectedToken then .error "Invalid token account token"
          else .ok info

/-- `Token.accountInfo` (token.js lines 364-397): reject the account when its
owning program differs from `programId`, then decode its data against the
expected token identity. -/
def Token.accountInfo (programId accountOwner expectedToken : Nat)
    (data : List Nat) : Except String TokenAccountInfo :=
  if accountOwner ≠ programId then .error "Invalid token account owner"
  else decodeTokenAccountInfo expectedToken data

theorem fromBuffer_some (buffer : List Nat) (x : Nat)
    (h : TokenAmount.fromBuffer buffer = some x) : x = leValM buffer := by
  rw [TokenAmount.fromBuffer] at h
  split at h
  · rw [hexJoinVal_reverse] at h
    injection h with h
    exact h.symm
  · simp at h

/-- Claim C3: for every token-account buffer whose `sourceOption` field is 0,
the decoding produces `source = none` and `originalAmount = 0`, whatever the
trailing source and originalAmount bytes hold. -/
theorem claim_C3_source_absent (expectedToken : Nat) (data : List Nat)
    (info : TokenAccountInfo)
    (hz : leValM ((data.drop 73).take 8) = 0)
    (hok : decodeTokenAccountInfo expectedToken data = .ok info) :
    info.source = none ∧ info.originalAmount = 0 := by
  simp only [decodeTokenAccountInfo, hz, reduceIte] at hok
  split at hok
  · simp at hok
  · split at hok
    · simp at hok
    · split at hok
      · simp at hok
      · split at hok
        · simp at hok
        · cases hok
          exact ⟨rfl, rfl⟩

/-- Witness for C3: a 121-byte account buffer with zero `sourceOption` and
nonzero garbage in the 40 trailing bytes decodes with `source` absent and
`originalAmount` zero. -/
theorem claim_C3_witness :
    (TokenAccountInfo.mk 2 0 0 0 none 0).source = none
    ∧ (TokenAccountInfo.mk 2 0 0 0 none 0).originalAmount = 0 :=
  claim_C3_source_absent 0 ((2 :: List.replicate 80 0) ++ List.replicate 40 7)
    (TokenAccountInfo.mk 2 0 0 0 none 0) (by decide) (by rfl)

/-- Claim C6: for every token-account buffer whose `sourceOption` field is
nonzero, the decoding returns `source` equal to the 32-byte public key at the
source offset (bytes 81..113) and `originalAmount` equal to the 8-byte
little-endian amount at the originalAmount offset (bytes 113..121). -/
theorem claim_C6_source_present (expectedToken : Nat) (data : List Nat)
    (info : TokenAccountInfo)
    (hnz : leValM ((data.drop 73).take 8) ≠ 0)
    (hok : decodeTokenAccountInfo expectedToken data = .ok info) :
    info.source = some (pubKeyVal ((data.drop 81).take 32))
    ∧ info.originalAmount = leValM ((data.drop 113).take 8) := by
  simp only [decodeTokenAccountInfo, hnz, reduceIte] at hok
  split at hok
  · simp at hok
  · split at hok
    · simp at hok
    · split at hok
      · simp at hok
      · split at hok
        · simp at hok
        · rename_i info' hnext
          split at hok
          · simp at hok
          · cases hok
            revert hnext
            split
            · intro h
              simp at h
            · rename_i o ho
              intro h
              injection h with h
              subst h
              exact ⟨rfl, (fromBuffer_some _ _ ho)⟩

/-- Witness for C6: a 121-byte buffer with `sourceOption = 1`, source bytes
all 5 and originalAmount bytes encoding 9 decodes to exactly those values. -/
theorem claim_C6_witness :
    (TokenAccountInfo.mk 2 0 0 0 (some (pubKeyVal (List.replicate 32 5))) 9).source
      = some (pubKeyVal (((((2 :: List.replicate 72 0) ++ (1 :: List.replicate 7 0)
          ++ List.replicate 32 5 ++ (9 :: List.replicate 7 0)).drop 81).take 32)))
    ∧ (TokenAccountInfo.mk 2 0 0 0 (some (pubKeyVal (List.replicate 32 5))) 9).originalAmount
      = leValM ((((2 :: List.replicate 72 0) ++ (1 :: List.replicate 7 0)
          ++ List.replicate 32 5 ++ (9 :: List.replicate 7 0)).drop 113).take 8) :=
  claim_C6_source_present 0
    ((2 :: List.replicate 72 0) ++ (1 :: List.replicate 7 0)
      ++ List.replicate 32 5 ++ (9 :: List.replicate 7 0))
    (TokenAccountInfo.mk 2 0 0 0 (some (pubKeyVal (List.replicate 32 5))) 9)
    (by decide) (by rfl)

/-- Claim C4: whenever the decoded data's embedded token public key differs
from the Token object's expected token identity, `Token.accountInfo` fails
rather than returning a record. -/
theorem claim_C4_token_mismatch (programId accountOwner expectedToken : Nat)
    (data : List Nat) (info : TokenAccountInfo)
    (hne : pubKeyVal ((data.drop 1).take 32) ≠ expectedToken) :
    Token.accountInfo programId accountOwner expectedToken data ≠ .ok info := by
  intro hok
  rw [Token.accountInfo] at hok
  split at hok
  · simp at hok
  · simp only [decodeTokenAccountInfo] at hok
    split at hok
    · simp at hok
    · split at hok
      · simp at hok
      · split at hok
        · simp at hok
        · split at hok
          · simp at hok
          · rename_i info' hnext
            split at hok
            · simp at hok
            · rename_i htok
              have htok' := not_not.mp htok
              revert hnext
              split
              · intro h
                injection h with h
                subst h
                exact hne htok'
              · split
                · intro h
                  simp at h
                · rename_i o ho
                  intro h
                  injection h with h
                  subst h
                  exact hne htok'

/-- Witness for C4: a well-formed buffer embedding token key 0 is rejected
when the expected token identity is 1. -/
theorem claim_C4_witness :
    Token.accountInfo 0 0 1 (2 :: List.replicate 80 0)
      ≠ .ok (TokenAccountInfo.mk 2 0 0 0 none 0) :=
  claim_C4_token_mismatch 0 0 1 (2 :: List.replicate 80 0)
    (TokenAccountInfo.mk 2 0 0 0 none 0) (by decide)

/-- Claim C5: decoding a token-info buffer fails whenever its state byte is
not 1, and decoding a token-account-info buffer fails whenever its state byte
is not 2; in both cases no record is returned. -/
theorem claim_C5_state_sentinel (expectedToken s : Nat) (data : List Nat)
    (ti : TokenInfo) (tai : TokenAccountInfo) (hs : data.head? = some s) :
    (s ≠ 1 → decodeTokenInfo data ≠ .ok ti)
    ∧ (s ≠ 2 → decodeTokenAccountInfo expectedToken data ≠ .ok tai) := by
  have hd : data.headD 0 = s := by
    cases data with
    | nil => simp at hs
    | cons a l =>
      simp only [List.head?_cons, Option.some.injEq] at hs
      simp [hs]
  constructor
  · intro h1 hok
    simp only [decodeTokenInfo, hd] at hok
    split at hok
    · simp at hok
    · simp [hd, h1] at hok
  · intro h2 hok
    simp only [decodeTokenAccountInfo, hd] at hok
    split at hok
    · simp at hok
    · simp [hd, h2] at hok

/-- Witness for C5: a buffer whose state byte is 5 is rejected by both
decoders. -/
theorem claim_C5_witness :
    decodeTokenInfo (List.replicate 121 5) ≠ .ok (TokenInfo.mk 5 0 0)
    ∧ decodeTokenAccountInfo 0 (List.replicate 121 5)
      ≠ .ok (TokenAccountInfo.mk 5 0 0 0 none 0) :=
  ⟨(claim_C5_state_sentinel 0 5 (List.replicate 121 5) (TokenInfo.mk 5 0 0)
      (TokenAccountInfo.mk 5 0 0 0 none 0) (by decide)).1 (by decide),
   (claim_C5_state_sentinel 0 5 (List.replicate 121 5) (TokenInfo.mk 5 0 0)
      (TokenAccountInfo.mk 5 0 0 0 none 0) (by decide)).2 (by decide)⟩

theorem leBytesFixed_mod (k : Nat) : ∀ v : Nat,
    leBytesFixed k (v % 256 ^ k) = leBytesFixed k v := by
  induction k with
  | zero => intro v; rfl
  | succ k ih =>
    intro v
    rw [leBytesFixed, leBytesFixed]
    have h1 : v % 256 ^ (k + 1) % 256 = v % 256 :=
      Nat.mod_mod_of_dvd v ⟨256 ^ k, by ring⟩
    have h2 : v % 256 ^ (k + 1) / 256 = v / 256 % 256 ^ k := by
      rw [show (256:Nat) ^ (k + 1) = 256 * 256 ^ k by ring,
        Nat.mod_mul_right_div_self]
    rw [h1, h2, ih]

theorem leBytesFixed_append (a b : Nat) : ∀ v : Nat,
    leBytesFixed (a + b) v = leBytesFixed a v ++ leBytesFixed b (v / 256 ^ a) := by
  induction a with
  | zero =>
    intro v
    simp [leBytesFixed]
  | succ a ih =>
    intro v
    rw [show a + 1 + b = (a + b) + 1 by omega, leBytesFixed, leBytesFixed]
    simp only [List.cons_append, List.cons.injEq, true_and]
    rw [ih (v / 256), Nat.div_div_eq_div_mul]
    congr 2
    rw [Nat.pow_succ, Nat.mul_comm]

/-- `nu64` encode (buffer-layout): `writeUInt32LE` of the low 32-bit word
then the high word; `writeUInt32LE` raises when a word is out of range, so
the value must fit in 64 bits. -/
def nu64Encode (v : Nat) : Option (List Nat) :=
  if v < 2 ^ 64 then
    some (leBytesFixed 4 (v % 2 ^ 32) ++ leBytesFixed 4 (v / 2 ^ 32))
  else none

theorem nu64Encode_eq (v : Nat) (hv : v < 2 ^ 64) :
    nu64Encode v = some (leBytesFixed 8 v) := by
  rw [nu64Encode, if_pos hv]
  congr 1
  rw [show (2:Nat) ^ 32 = 256 ^ 4 by norm_num, leBytesFixed_mod,
    show (8:Nat) = 4 + 4 from rfl, leBytesFixed_append]

/-- NewToken instruction payload (`createNewToken`, token.js lines 208-225):
`u8 instruction = 0`, the 8-byte `supply` from `TokenAmount.toBuffer`, and
`nu64 decimals`; the 1024-byte scratch buffer is sliced to the encoded
span 17. -/
def newTokenInstructionData (supply decimals : Nat) : Option (List Nat) :=
  match TokenAmount.toBuffer supply, nu64Encode decimals with
  | some sb, some db => some (0 :: (sb ++ db))
  | _, _ => none

/-- NewTokenAccount instruction payload (`newAccount`, token.js lines
283-291): the tag byte 1 alone. -/
def newTokenAccountInstructionData : List Nat := [1]

/-- Transfer instruction payload (`transferInstruction`, token.js lines
508-520): tag 2 followed by the 8-byte amount. -/
def transferInstructionData (amount : Nat) : Option (List Nat) :=
  (TokenAmount.toBuffer amount).map (fun ab => 2 :: ab)

/-- Approve instruction payload (`approveInstruction`, token.js lines
555-567): tag 3 followed by the 8-byte amount. -/
def approveInstructionData (amount : Nat) : Option (List Nat) :=
  (TokenAmount.toBuffer amount).map (fun ab => 3 :: ab)

/-- SetOwner instruction payload (`setOwnerInstruction`, token.js lines
607-615): the tag byte 4 alone. -/
def setOwnerInstructionData : List Nat := [4]

/-- Claim C8: every instruction payload is a fixed struct whose first byte is
the tag from the enumeration NewToken=0, NewTokenAccount=1, Transfer=2,
Approve=3, SetOwner=4; NewToken carries an 8-byte supply and an 8-byte
native-int decimals, Transfer and Approve an 8-byte amount, NewTokenAccount
and SetOwner the tag byte alone. -/
theorem claim_C8_instruction_encodings (supply decimals amount : Nat)
    (h1 : supply < 2 ^ 64) (h2 : decimals < 2 ^ 64) (h3 : amount < 2 ^ 64) :
    newTokenInstructionData supply decimals
      = some (0 :: (leBytesFixed 8 supply ++ leBytesFixed 8 decimals))
    ∧ newTokenAccountInstructionData = [1]
    ∧ transferInstructionData amount = some (2 :: leBytesFixed 8 amount)
    ∧ approveInstructionData amount = some (3 :: leBytesFixed 8 amount)
    ∧ setOwnerInstructionData = [4] := by
  refine ⟨?_, rfl, ?_, ?_, rfl⟩
  · rw [newTokenInstructionData, toBuffer_eq_le8 supply h1, nu64Encode_eq decimals h2]
  · rw [transferInstructionData, toBuffer_eq_le8 amount h3]
    rfl
  · rw [approveInstructionData, toBuffer_eq_le8 amount h3]
    rfl

/-- Witness for C8 at the test scenario values supply=10000, decimals=2,
amount=123. -/
theorem claim_C8_witness :
    newTokenInstructionData 10000 2
      = some (0 :: (leBytesFixed 8 10000 ++ leBytesFixed 8 2))
    ∧ newTokenAccountInstructionData = [1]
    ∧ transferInstructionData 123 = some (2 :: leBytesFixed 8 123)
    ∧ approveInstructionData 123 = some (3 :: leBytesFixed 8 123)
    ∧ setOwnerInstructionData = [4] :=
  claim_C8_instruction_encodings 10000 2 123 (by norm_num) (by norm_num) (by norm_num)

/-- An account key slot of a `TransactionInstruction`: its public key (as the
`BN` magnitude) and the signer/writable flags. -/
structure AccountMeta where
  pubkey : Nat
  isSigner : Bool
  isWritable : Bool
deriving Repr, DecidableEq

/-- The fields of a built `TransactionInstruction`. -/
structure TransactionInstruction where
  keys : List AccountMeta
  programId : Nat
  data : List Nat
deriving Repr, DecidableEq

/-- `Token.approveInstruction` (token.js lines 549-578): tag 3 plus the
8-byte amount, with keys owner (signer), account and delegate (writable). -/
def Token.approveInstruction (programId owner account delegate amount : Nat) :
    Option TransactionInstruction :=
  (approveInstructionData amount).map fun d =>
    ⟨[⟨owner, true, false⟩, ⟨account, false, true⟩, ⟨delegate, false, true⟩],
      programId, d⟩

/-- `Token.revokeInstruction` (token.js lines 587-593): returns
`this.approveInstruction(owner, account, delegate, 0)`. -/
def Token.revokeInstruction (programId owner account delegate : Nat) :
    Option TransactionInstruction :=
  Token.approveInstruction programId owner account delegate 0

/-- `Token.approve` (token.js lines 436-450): submits a transaction holding
exactly the one instruction built by `approveInstruction`; modelled as the
instruction list of that transaction. -/
def Token.approveTransaction (programId owner account delegate amount : Nat) :
    Option (List TransactionInstruction) :=
  (Token.approveInstruction programId owner account delegate amount).map
    (fun i => [i])

/-- `Token.revoke` (token.js lines 459-465): returns
`this.approve(owner, account, delegate, 0)`. -/
def Token.revokeTransaction (programId owner account delegate : Nat) :
    Option (List TransactionInstruction) :=
  Token.approveTransaction programId owner account delegate 0

/-- Claim C10: revocation has no wire encoding of its own — `Token.revoke`
performs exactly `Token.approve` with amount 0, `revokeInstruction` builds
exactly the instruction `approveInstruction` builds for amount 0, and that
instruction is tag byte 3 followed by an 8-byte zero amount with the same
key list. -/
theorem claim_C10_revoke_is_approve_zero (programId owner account delegate : Nat) :
    Token.revokeInstruction programId owner account delegate
      = Token.approveInstruction programId owner account delegate 0
    ∧ Token.revokeTransaction programId owner account delegate
      = Token.approveTransaction programId owner account delegate 0
    ∧ Token.revokeInstruction programId owner account delegate
      = some ⟨[⟨owner, true, false⟩, ⟨account, false, true⟩,
          ⟨delegate, false, true⟩], programId, 3 :: List.replicate 8 0⟩ := by
  refine ⟨rfl, rfl, ?_⟩
  rfl

/-- Modelled from the spec: the outcome set of the transaction-confirmation
state machine of `sendAndConfirmTransaction`
(`src/client/util/send-and-confirm-transaction.js`, whose source is not
included under `src/`): terminal success, terminal on-chain failure, and
elapsed-budget timeout. -/
inductive ConfirmOutcome
  | Confirmed (signature : Nat)
  | Failed (reason : Nat)
  | TimedOut
deriving Repr, DecidableEq

/-- Modelled from the spec: a `getSignatureStatus` reply that is not null —
`{Ok: null}` or `{Err: reason}`; `none` stands for the null "not yet
observed" reply. -/
inductive SignatureStatus
  | Ok
  | Err (reason : Nat)
deriving Repr, DecidableEq

/-- Modelled from the spec: the `Pending` polling loop of the confirmation
state machine — query the status by signature once per iteration (a fixed
sleep separates polls), return `Confirmed` with the signature on an explicit
ok status and `Failed` with the reason on an explicit error status, and
return `TimedOut` once the elapsed-time budget (the number of polls still
allowed) is exhausted with the status still null. -/
def confirmLoop (query : Nat → Option SignatureStatus) (signature : Nat) :
    Nat → Nat → ConfirmOutcome
  | _, 0 => .TimedOut
  | i, n + 1 =>
    match query i with
    | some .Ok => .Confirmed signature
    | some (.Err r) => .Failed r
    | none => confirmLoop query signature (i + 1) n

theorem confirmLoop_null (query : Nat → Option SignatureStatus)
    (signature : Nat) (hnull : ∀ i, query i = none) :
    ∀ budget i, confirmLoop query signature i budget = .TimedOut := by
  intro budget
  induction budget with
  | zero => intro i; rfl
  | succ n ih =>
    intro i
    rw [confirmLoop, hnull i]
    exact ih (i + 1)

/-- Claim C9: when every status query returns null until the polling budget
is exceeded, the confirmation outcome is `TimedOut`, which is distinct from
every `Failed` outcome and every `Confirmed` outcome. -/
theorem claim_C9_timeout_outcome (query : Nat → Option SignatureStatus)
    (signature budget r s : Nat) (hnull : ∀ i, query i = none) :
    confirmLoop query signature 0 budget = ConfirmOutcome.TimedOut
    ∧ ConfirmOutcome.TimedOut ≠ ConfirmOutcome.Failed r
    ∧ ConfirmOutcome.TimedOut ≠ ConfirmOutcome.Confirmed s :=
  ⟨confirmLoop_null query signature hnull budget 0,
   fun h => ConfirmOutcome.noConfusion h,
   fun h => ConfirmOutcome.noConfusion h⟩

/-- Witness for C9: an always-null status query with a budget of 5 polls. -/
theorem claim_C9_witness :
    confirmLoop (fun _ => none) 7 0 5 = ConfirmOutcome.TimedOut
    ∧ ConfirmOutcome.TimedOut ≠ ConfirmOutcome.Failed 1
    ∧ ConfirmOutcome.TimedOut ≠ ConfirmOutcome.Confirmed 2 :=
  claim_C9_timeout_outcome (fun _ => none) 7 5 1 2 (fun _ => rfl)

end SolanaToken
